import Mathlib

/-!
Verification of the Layer8 WebSocket overlay (layer8-tungstenite).

Shallow embedding of the Layer8 encryption overlay of the repository:
`Layer8Streamer` (src/layer8_client.rs) and `Layer8Stream`
(src/layer8_streamer.rs), together with the WebSocket frame codec and
frame socket they build on.  Bytes are modelled as `Nat` values denoting
`u8`; byte sequences as `List Nat`.  The external collaborators
(symmetric cipher of `layer8_primitives::crypto::Jwk` and the
`RoundtripEnvelope` transport codec) are modelled as abstract fallible
functions, exactly as the spec treats them (opaque black boxes).
-/

namespace Layer8

/-- Modelled from the spec: data opcodes of the frame codec
(`protocol/frame/coding.rs`, not under src/): Continuation | Text | Binary. -/
inductive OpData
  | cont
  | text
  | binary
  deriving DecidableEq, Repr

/-- Modelled from the spec: control opcodes: Close | Ping | Pong. -/
inductive OpCtl
  | close
  | ping
  | pong
  deriving DecidableEq, Repr

/-- Modelled from the spec: a frame opcode is either a data opcode or a
control opcode. -/
inductive OpCode
  | data (d : OpData)
  | ctl (c : OpCtl)
  deriving DecidableEq, Repr

/-- Modelled from the spec: one WebSocket frame: fin bit, opcode, optional
4-byte masking key, payload (reserved bits are always zero on write and
rejected when set on read). -/
structure Frame where
  fin : Bool
  opcode : OpCode
  mask : Option (List Nat)
  payload : List Nat
  deriving DecidableEq, Repr

/-- The wire number of an opcode (per the WebSocket wire format). -/
def opcodeNum : OpCode → Nat
  | .data .cont => 0
  | .data .text => 1
  | .data .binary => 2
  | .ctl .close => 8
  | .ctl .ping => 9
  | .ctl .pong => 10

/-- Byte-wise XOR of a payload with a repeating 4-byte key, starting at
offset `i` (the masking operation of the frame codec). -/
def maskBytes (key : List Nat) : Nat → List Nat → List Nat
  | _, [] => []
  | i, b :: rest => (b ^^^ key.getD (i % 4) 0) :: maskBytes key (i + 1) rest

/-- The length part of a frame header: minimal encoding (7-bit inline for
0..125, 16-bit big-endian for 126..65535, 64-bit big-endian above), with
the mask bit `mbit` (0 or 128) folded into the first byte. -/
def lenHeader (mbit L : Nat) : List Nat :=
  if L ≤ 125 then [mbit + L]
  else if L ≤ 65535 then [mbit + 126, L / 256 % 256, L % 256]
  else [mbit + 127, L / 2 ^ 56 % 256, L / 2 ^ 48 % 256, L / 2 ^ 40 % 256,
        L / 2 ^ 32 % 256, L / 2 ^ 24 % 256, L / 2 ^ 16 % 256, L / 2 ^ 8 % 256, L % 256]

/-- Modelled from the spec: `Frame::format_into_buf` — serialize a frame to
its complete wire bytes: header byte (fin bit + opcode), length header with
mask bit, masking key if present, payload (masked with the stored key when
`mask` is set). -/
def serializeFrame (f : Frame) : List Nat :=
  let b0 := (if f.fin then 128 else 0) + opcodeNum f.opcode
  match f.mask with
  | none => b0 :: lenHeader 0 f.payload.length ++ f.payload
  | some key => b0 :: lenHeader 128 f.payload.length ++ key ++ maskBytes key 0 f.payload

/-- Decode an opcode number; unknown opcodes are a Protocol error. -/
def parseOpcode : Nat → Except String OpCode
  | 0 => .ok (.data .cont)
  | 1 => .ok (.data .text)
  | 2 => .ok (.data .binary)
  | 8 => .ok (.ctl .close)
  | 9 => .ok (.ctl .ping)
  | 10 => .ok (.ctl .pong)
  | _ => .error "Protocol: unknown opcode"

/-- Big-endian value of a byte list. -/
def beVal (bs : List Nat) : Nat :=
  bs.foldl (fun acc b => acc * 256 + b) 0

/-- The default read-size ceiling.  Modelled from the spec: "The read-size
limit bounds total bytes consumed for a single logical read ... (default
ceiling: 1 GiB)". -/
def defaultReadCeiling : Nat := 2 ^ 30

/-- Parse the length byte of a frame header and any extended length field;
returns the mask bit, the payload length, and the remaining bytes. -/
def parseLenByte (r : List Nat) : Except String (Bool × Nat × List Nat) :=
  match r with
  | [] => .error "incomplete frame"
  | b1 :: r2 =>
    let masked : Bool := 128 ≤ b1
    let len7 := b1 % 128
    if len7 ≤ 125 then .ok (masked, len7, r2)
    else if len7 = 126 then
      match r2 with
      | x :: y :: r3 => .ok (masked, x * 256 + y, r3)
      | _ => .error "incomplete frame"
    else
      match r2 with
      | a :: b :: c :: d :: e :: g :: h :: k :: r3 =>
        .ok (masked, beVal [a, b, c, d, e, g, h, k], r3)
      | _ => .error "incomplete frame"

/-- Parse the 4-byte masking key when the mask bit is set. -/
def parseMaskKey (masked : Bool) (r : List Nat) :
    Except String (Option (List Nat) × List Nat) :=
  if masked then
    match r with
    | k1 :: k2 :: k3 :: k4 :: r2 => .ok (some [k1, k2, k3, k4], r2)
    | _ => .error "incomplete frame"
  else .ok (none, r)

/-- Modelled from the spec: parse exactly one frame from a byte buffer.
Returns `ok none` on clean end-of-data before any byte of a new frame,
`ok (some (frame, rest))` on a complete frame with `rest` the unconsumed
bytes, and an error on a malformed header (reserved bits, unknown opcode),
a frame larger than the size limit, or a buffer that ends mid-frame
(unmasking is applied when the mask bit is set). -/
def parseFrame (maxSize : Option Nat) (input : List Nat) :
    Except String (Option (Frame × List Nat)) :=
  match input with
  | [] => .ok none
  | b0 :: rest =>
    if b0 % 128 / 16 ≠ 0 then .error "Protocol: reserved bits set"
    else
      match parseOpcode (b0 % 16) with
      | .error e => .error e
      | .ok opc =>
        match parseLenByte rest with
        | .error e => .error e
        | .ok (masked, len, r3) =>
          if maxSize.getD defaultReadCeiling < len then
            .error "Capacity: frame too large"
          else
            match parseMaskKey masked r3 with
            | .error e => .error e
            | .ok (mk, r4) =>
              if len ≤ r4.length then
                let payload :=
                  match mk with
                  | none => r4.take len
                  | some key => maskBytes key 0 (r4.take len)
                .ok (some (⟨128 ≤ b0, opc, mk, payload⟩, r4.drop len))
              else .error "incomplete frame"

/-- Modelled from the spec: the underlying byte stream ("any ordered,
reliable, bidirectional byte channel (TCP socket, in-memory buffer, etc.)
supporting blocking read/write/flush").  `input` holds the bytes still to
be read, `output` the bytes written so far; `writeCap` bounds how many
bytes a single underlying write accepts (`none` = all, as for an in-memory
buffer); `flushOk` tells whether flush succeeds; `flushCount` counts flush
attempts. -/
structure ByteStream where
  input : List Nat
  output : List Nat
  writeCap : Option Nat := none
  flushOk : Bool := true
  flushCount : Nat := 0

/-- One underlying write: the stream accepts at most `writeCap` bytes and
reports how many it accepted (`std::io::Write::write`). -/
def ByteStream.writeBytes (s : ByteStream) (data : List Nat) : ByteStream × Nat :=
  let accepted :=
    match s.writeCap with
    | none => data.length
    | some cap => min cap data.length
  ({ s with output := s.output ++ data.take accepted }, accepted)

/-- One underlying flush attempt: records the attempt and reports success
or failure (`std::io::Write::flush`). -/
def ByteStream.flushRaw (s : ByteStream) : ByteStream × Except String Unit :=
  ({ s with flushCount := s.flushCount + 1 },
   if s.flushOk then .ok () else .error "flush failed")

/-- Modelled from the spec: `FrameSocket::read(size_limit)` — reads exactly
one complete frame, buffering; `ok none` means the stream reported clean
end-of-data before any bytes of a new frame. -/
def frameSocketRead (maxSize : Option Nat) (s : ByteStream) :
    Except String (ByteStream × Option Frame) :=
  match parseFrame maxSize s.input with
  | .error e => .error e
  | .ok none => .ok (s, none)
  | .ok (some (f, rest)) => .ok ({ s with input := rest }, some f)

/-- Modelled from the spec: `FrameSocket::write(frame)` — serializes and
writes a single frame to the underlying stream. -/
def frameSocketWrite (s : ByteStream) (f : Frame) : ByteStream :=
  { s with output := s.output ++ serializeFrame f }

/-- The symmetric-key object (`layer8_primitives::crypto::Jwk`), an external
collaborator: an opaque pair of fallible operations. -/
structure Jwk where
  symmetricEncrypt : List Nat → Except String (List Nat)
  symmetricDecrypt : List Nat → Except String (List Nat)

/-- The envelope codec (`layer8_primitives::types::RoundtripEnvelope`), an
external collaborator: `encode` is `RoundtripEnvelope::encode(..).to_json_bytes()`
(infallible), `decode` is `RoundtripEnvelope::from_json_bytes(..)?.decode()`
(fallible). -/
structure Envelope where
  encode : List Nat → List Nat
  decode : List Nat → Except String (List Nat)

/-- `Frame::close` takes an optional close code and reason. -/
structure CloseFrame where
  code : Nat
  reason : List Nat
  deriving DecidableEq, Repr

/-- `Message`: the closed variant set {Text, Binary, Ping, Pong, Close,
raw Frame}.  Text carries its UTF-8 bytes (validity is a construction-time
concern of the external `Utf8Bytes` type). -/
inductive Message
  | text (d : List Nat)
  | binary (d : List Nat)
  | ping (d : List Nat)
  | pong (d : List Nat)
  | close (c : Option CloseFrame)
  | frame (f : Frame)
  deriving DecidableEq, Repr

/-- `Frame::message(data, opcode, is_final)`: an unmasked frame. -/
def Frame.message (data : List Nat) (opc : OpCode) (fin : Bool) : Frame :=
  ⟨fin, opc, none, data⟩

/-- `Frame::ping(data)`: final unmasked Ping control frame. -/
def Frame.ping (data : List Nat) : Frame :=
  ⟨true, .ctl .ping, none, data⟩

/-- `Frame::pong(data)`: final unmasked Pong control frame. -/
def Frame.pong (data : List Nat) : Frame :=
  ⟨true, .ctl .pong, none, data⟩

/-- `Frame::close(code)`: final unmasked Close control frame; the payload is
the big-endian close code followed by the reason bytes, empty when no code
is given. -/
def Frame.close (c : Option CloseFrame) : Frame :=
  ⟨true, .ctl .close, none,
   match c with
   | none => []
   | some cf => cf.code / 256 % 256 :: cf.code % 256 :: cf.reason⟩

/-- `Layer8Streamer` (src/layer8_client.rs): a frame socket plus an
optional shared secret. -/
structure Layer8Streamer where
  frameSocket : ByteStream
  sharedSecret : Option Jwk

/-- The `match message` of `Layer8Streamer::write_message`: convert a
Message to the single frame it denotes. -/
def frameOfMessage : Message → Frame
  | .text d => Frame.message d (.data .text) true
  | .binary d => Frame.message d (.data .binary) true
  | .ping d => Frame.ping d
  | .pong d => Frame.pong d
  | .close c => Frame.close c
  | .frame f => f

/-- `Layer8Streamer::write_message`: convert the message to a frame; when a
shared secret is present, serialize that frame, symmetric-encrypt the
bytes, envelope-encode the ciphertext and wrap the result as the payload of
a new final outer Binary frame; write the (outer or plaintext) frame via
the frame socket. -/
def writeMessage (env : Envelope) (st : Layer8Streamer) (m : Message) :
    Except String Layer8Streamer :=
  let frame := frameOfMessage m
  match st.sharedSecret with
  | some secretKey =>
    match secretKey.symmetricEncrypt (serializeFrame frame) with
    | .error e => .error ("Failed to encrypt frame: " ++ e)
    | .ok ciphertext =>
      let encryptedPayload := env.encode ciphertext
      let outer := Frame.message encryptedPayload (.data .binary) true
      .ok { st with frameSocket := frameSocketWrite st.frameSocket outer }
  | none => .ok { st with frameSocket := frameSocketWrite st.frameSocket frame }

/-- `Layer8Streamer::read_message`: read one outer frame (clean end-of-data
gives `ok none`); without a secret, wrap it as `Message::Frame`; with a
secret, envelope-decode and symmetric-decrypt its payload and re-parse the
decrypted bytes with a fresh frame reader over an owned buffer (a
`FrameSocket` over `Cursor::new(data_decrypted)`); an absent nested frame
is an error. -/
def readMessage (env : Envelope) (st : Layer8Streamer) :
    Except String (Option (Message × Layer8Streamer)) :=
  match frameSocketRead none st.frameSocket with
  | .error e => .error ("Failed to read frame: " ++ e)
  | .ok (_, none) => .ok none
  | .ok (s1, some frame) =>
    match st.sharedSecret with
    | none => .ok (some (.frame frame, { st with frameSocket := s1 }))
    | some secretKey =>
      match env.decode frame.payload with
      | .error e => .error ("Failed to parse json response: " ++ e)
      | .ok data =>
        match secretKey.symmetricDecrypt data with
        | .error e => .error ("Failed to decrypt response: " ++ e)
        | .ok dataDecrypted =>
          match frameSocketRead none ⟨dataDecrypted, [], none, true, 0⟩ with
          | .error e => .error ("Failed to read frame: " ++ e)
          | .ok (_, none) => .error "Failed to read nested frame"
          | .ok (_, some inner) =>
            .ok (some (.frame inner, { st with frameSocket := s1 }))

/-- `Layer8Streamer::send`: write the message, then
`Ok(_ = self.frame_socket.flush())` — the flush is attempted but its
result is discarded. -/
def send (env : Envelope) (st : Layer8Streamer) (m : Message) :
    Except String Layer8Streamer :=
  match writeMessage env st m with
  | .error e => .error e
  | .ok st1 =>
    let (s2, _discarded) := st1.frameSocket.flushRaw
    .ok { st1 with frameSocket := s2 }

/-- `Layer8Streamer::flush`: flush the frame socket, wrapping any failure. -/
def streamerFlush (st : Layer8Streamer) : Except String Layer8Streamer :=
  match st.frameSocket.flushRaw with
  | (s1, .ok _) => .ok { st with frameSocket := s1 }
  | (_, .error e) => .error ("Failed to flush frame socket: " ++ e)

/-- `Layer8Stream` (src/layer8_streamer.rs): a byte-level wrapper holding
the underlying stream, a (mandatory) shared secret, and the debug byte
counters. -/
structure Layer8Stream where
  stream : ByteStream
  sharedSecret : Jwk
  writtenLen : Nat := 0
  readLen : Nat := 0

/-- `Layer8Stream::common_write`: empty buffers short-circuit to `(0, 0)`;
otherwise encrypt, envelope-encode, write to the underlying stream, and
fail unless the stream accepted the whole encoded envelope.  Returns
`(encrypted_written, buf.len())`. -/
def commonWrite (env : Envelope) (st : Layer8Stream) (buf : List Nat) :
    Except String (Layer8Stream × Nat × Nat) :=
  if buf = [] then .ok (st, 0, 0)
  else
    match st.sharedSecret.symmetricEncrypt buf with
    | .error e => .error ("Failed to encrypt data: " ++ e)
    | .ok ciphertext =>
      let dataEncrypted := env.encode ciphertext
      let (s1, encryptedWritten) := st.stream.writeBytes dataEncrypted
      if encryptedWritten ≠ dataEncrypted.length then
        .error "Failed to write all encrypted data"
      else .ok ({ st with stream := s1 }, encryptedWritten, buf.length)

/-- `<Layer8Stream as Write>::write` (debug build): run `common_write`,
record the encrypted byte count in `written_len`, and report the second
component — the plaintext length — to the caller. -/
def layer8StreamWrite (env : Envelope) (st : Layer8Stream) (buf : List Nat) :
    Except String (Layer8Stream × Nat) :=
  match commonWrite env st buf with
  | .error e => .error e
  | .ok (st1, encryptedWritten, reported) =>
    .ok ({ st1 with writtenLen := encryptedWritten }, reported)

/-- An identity envelope codec: a concrete instantiation of the opaque
external `RoundtripEnvelope` collaborator, used to evaluate the streamer on
concrete inputs. -/
def idEnvelope : Envelope :=
  ⟨fun b => b, fun b => .ok b⟩

/-- An identity symmetric key: a concrete instantiation of the opaque
external `Jwk` collaborator, used to evaluate the streamer on concrete
inputs. -/
def idJwk : Jwk :=
  ⟨fun b => .ok b, fun b => .ok b⟩


theorem maskBytes_length (key : List Nat) (i : Nat) (p : List Nat) :
    (maskBytes key i p).length = p.length := by
  induction p generalizing i with
  | nil => rfl
  | cons b rest ih => simp [maskBytes, ih]

theorem maskBytes_maskBytes (key : List Nat) (i : Nat) (p : List Nat) :
    maskBytes key i (maskBytes key i p) = p := by
  induction p generalizing i with
  | nil => rfl
  | cons b rest ih =>
    simp [maskBytes, ih, Nat.xor_assoc, Nat.xor_self, Nat.xor_zero]

theorem parseOpcode_opcodeNum (opc : OpCode) : parseOpcode (opcodeNum opc) = .ok opc := by
  rcases opc with (d | c)
  · cases d <;> rfl
  · cases c <;> rfl

theorem opcodeNum_le (opc : OpCode) : opcodeNum opc ≤ 10 := by
  rcases opc with (d | c)
  · cases d <;> simp [opcodeNum]
  · cases c <;> simp [opcodeNum]

theorem parseLenByte_lenHeader0 (L : Nat) (hL : L < 2 ^ 64) (X : List Nat) :
    parseLenByte (lenHeader 0 L ++ X) = .ok (false, L, X) := by
  by_cases h125 : L ≤ 125
  · have hmod : L % 128 = L := Nat.mod_eq_of_lt (by omega)
    have hmask : (decide (128 ≤ L)) = false := by simp; omega
    simp [lenHeader, h125, parseLenByte, hmod, hmask]
  · by_cases h16 : L ≤ 65535
    · simp [lenHeader, h125, h16, parseLenByte]
      omega
    · simp [lenHeader, h125, h16, parseLenByte, beVal]
      omega

theorem parseLenByte_lenHeader128 (L : Nat) (hL : L < 2 ^ 64) (X : List Nat) :
    parseLenByte (lenHeader 128 L ++ X) = .ok (true, L, X) := by
  by_cases h125 : L ≤ 125
  · have hmod : (128 + L) % 128 = L := by omega
    have hmask : (decide (128 ≤ 128 + L)) = true := by simp
    simp [lenHeader, h125, parseLenByte, hmod, hmask]
  · by_cases h16 : L ≤ 65535
    · simp [lenHeader, h125, h16, parseLenByte]
      omega
    · simp [lenHeader, h125, h16, parseLenByte, beVal]
      omega

theorem header_checks (fin : Bool) (opc : OpCode) :
    ((if fin then 128 else 0) + opcodeNum opc) % 128 / 16 = 0 ∧
    ((if fin then 128 else 0) + opcodeNum opc) % 16 = opcodeNum opc ∧
    (decide (128 ≤ (if fin then 128 else 0) + opcodeNum opc)) = fin := by
  have h := opcodeNum_le opc
  cases fin <;> simp <;> omega

theorem parseFrame_serializeFrame (cap : Option Nat) (f : Frame)
    (hmask : ∀ k, f.mask = some k → k.length = 4)
    (hL : f.payload.length < 2 ^ 64) :
    parseFrame cap (serializeFrame f) =
      if cap.getD defaultReadCeiling < f.payload.length then
        .error "Capacity: frame too large"
      else .ok (some (f, [])) := by
  obtain ⟨fin, opc, mk, payload⟩ := f
  obtain ⟨hrsv, hop16, hfin⟩ := header_checks fin opc
  simp only [Frame.payload] at hL ⊢
  cases mk with
  | none =>
    have hser : serializeFrame ⟨fin, opc, none, payload⟩ =
        ((if fin then 128 else 0) + opcodeNum opc) ::
          (lenHeader 0 payload.length ++ payload) := rfl
    rw [hser]
    simp only [parseFrame]
    rw [hrsv, hop16, parseOpcode_opcodeNum,
      parseLenByte_lenHeader0 payload.length hL payload]
    simp only [if_neg (by omega : ¬ (0 : Nat) ≠ 0)]
    by_cases hc : cap.getD defaultReadCeiling < payload.length
    · simp [hc]
    · simp [hc, parseMaskKey, List.take_length, List.drop_length, hfin]
  | some key =>
    have hk : key.length = 4 := hmask key rfl
    have hser : serializeFrame ⟨fin, opc, some key, payload⟩ =
        ((if fin then 128 else 0) + opcodeNum opc) ::
          (lenHeader 128 payload.length ++ key ++ maskBytes key 0 payload) := rfl
    rw [hser, List.append_assoc]
    simp only [parseFrame]
    rw [hrsv, hop16, parseOpcode_opcodeNum,
      parseLenByte_lenHeader128 payload.length hL (key ++ maskBytes key 0 payload)]
    simp only [if_neg (by omega : ¬ (0 : Nat) ≠ 0)]
    rcases key with _ | ⟨k1, _ | ⟨k2, _ | ⟨k3, _ | ⟨k4, _ | ⟨k5, tl⟩⟩⟩⟩⟩ <;>
      simp only [List.length] at hk <;> try omega
    by_cases hc : cap.getD defaultReadCeiling < payload.length
    · simp [hc]
    · have hlen : (maskBytes [k1, k2, k3, k4] 0 payload).length = payload.length :=
        maskBytes_length _ _ _
      simp [hc, parseMaskKey, hlen, List.take_length, List.drop_length, hfin,
        maskBytes_maskBytes]
      rw [← hlen]
      simp [List.take_length, List.drop_length, maskBytes_maskBytes]


theorem parseLenByte_bound (r : List Nat) (mk : Bool) (len : Nat) (r3 : List Nat)
    (h : parseLenByte r = .ok (mk, len, r3)) : r.length ≤ r3.length + 9 := by
  rcases r with _ | ⟨b1, r2⟩
  · cases h
  · simp only [parseLenByte] at h
    split at h
    · cases h; simp
    · split at h
      · split at h
        · cases h; simp
        · cases h
      · split at h
        · cases h; simp
        · cases h

theorem parseMaskKey_bound (masked : Bool) (r : List Nat)
    (mk : Option (List Nat)) (r4 : List Nat)
    (h : parseMaskKey masked r = .ok (mk, r4)) : r.length ≤ r4.length + 4 := by
  simp only [parseMaskKey] at h
  split at h
  · split at h
    · cases h; simp
    · cases h
  · cases h; omega

theorem parseFrame_ok_bound (maxSize : Option Nat) (input : List Nat)
    (f : Frame) (rest : List Nat)
    (h : parseFrame maxSize input = .ok (some (f, rest))) :
    f.payload.length ≤ maxSize.getD defaultReadCeiling ∧
    input.length ≤ rest.length + 14 + maxSize.getD defaultReadCeiling := by
  rcases input with _ | ⟨b0, r1⟩
  · cases h
  · simp only [parseFrame] at h
    split at h
    · cases h
    · split at h
      · cases h
      · split at h
        · cases h
        · next masked len r3 hlb =>
          split at h
          · cases h
          · next hcap =>
            split at h
            · cases h
            · next mk r4 hmk =>
              split at h
              · next hlen =>
                cases h
                have hb := parseLenByte_bound r1 masked len r3 hlb
                have hm := parseMaskKey_bound masked r3 mk r4 hmk
                constructor
                · cases mk <;>
                    simp [maskBytes_length, List.length_take] <;> omega
                · have hd : (r4.drop len).length = r4.length - len :=
                    List.length_drop len r4
                  simp only [List.length_cons]
                  omega
              · cases h

theorem readMessage_ok_some (env : Envelope) (st : Layer8Streamer)
    (msg : Message) (st' : Layer8Streamer)
    (h : readMessage env st = .ok (some (msg, st'))) :
    st'.sharedSecret = st.sharedSecret ∧
    (∃ f rest, parseFrame none st.frameSocket.input = .ok (some (f, rest)) ∧
      st'.frameSocket.input = rest ∧
      ∃ g, msg = .frame g ∧ g.payload.length ≤ defaultReadCeiling) := by
  simp only [readMessage, frameSocketRead] at h
  rcases hp : parseFrame none st.frameSocket.input with e | (_ | ⟨f, rest⟩) <;>
    simp only [hp] at h
  · cases h
  · cases h
  · rcases hss : st.sharedSecret with _ | key <;> simp only [hss] at h
    · cases h
      exact ⟨rfl, f, rest, rfl, rfl, f, rfl,
        by simpa using (parseFrame_ok_bound none st.frameSocket.input f rest hp).1⟩
    · rcases hdec : env.decode f.payload with e | data <;> simp only [hdec] at h
      · cases h
      · rcases hdc : key.symmetricDecrypt data with e | plain <;> simp only [hdc] at h
        · cases h
        · rcases hn : parseFrame none plain with e | (_ | ⟨g, grest⟩) <;>
            simp only [hn] at h
          · cases h
          · cases h
          · cases h
            exact ⟨rfl, f, rest, rfl, rfl, g, rfl,
              by simpa using (parseFrame_ok_bound none plain g grest hn).1⟩

theorem writeMessage_sharedSecret (env : Envelope) (st : Layer8Streamer)
    (m : Message) (st' : Layer8Streamer) (h : writeMessage env st m = .ok st') :
    st'.sharedSecret = st.sharedSecret := by
  simp only [writeMessage] at h
  rcases hss : st.sharedSecret with _ | key <;> simp only [hss] at h
  · cases h; rfl
  · rcases henc : key.symmetricEncrypt (serializeFrame (frameOfMessage m)) with e | c <;>
      simp only [henc] at h
    · cases h
    · cases h; rfl

/-- C1: with a shared secret configured, `write_message` converts the
message to its inner frame exactly as in the plaintext path
(`frameOfMessage`), serializes that frame to its complete wire bytes
without writing them, symmetric-encrypts those bytes, envelope-encodes the
ciphertext, and writes exactly one outer final Binary data frame whose
payload is the transport-safe bytes. -/
theorem claim_C1_write_message_encrypted (env : Envelope) (key : Jwk)
    (st : Layer8Streamer) (m : Message) (c : List Nat)
    (hsec : st.sharedSecret = some key)
    (henc : key.symmetricEncrypt (serializeFrame (frameOfMessage m)) = .ok c) :
    writeMessage env st m =
      .ok { st with
        frameSocket := { st.frameSocket with
          output := st.frameSocket.output ++
            serializeFrame (Frame.message (env.encode c) (.data .binary) true) } } := by
  simp [writeMessage, hsec, henc, frameSocketWrite]

theorem claim_C1_witness :
    writeMessage idEnvelope ⟨⟨[], [], none, true, 0⟩, some idJwk⟩ (.ping [42]) =
      .ok ⟨⟨[], [130, 3, 137, 1, 42], none, true, 0⟩, some idJwk⟩ :=
  claim_C1_write_message_encrypted idEnvelope idJwk
    ⟨⟨[], [], none, true, 0⟩, some idJwk⟩ (.ping [42]) [137, 1, 42] rfl rfl

/-- C4 (code bug): `send` is `write_message` followed by
`Ok(_ = self.frame_socket.flush())`, which discards the flush result.  On a
stream whose flush fails (`flushOk = false`), `send` still returns `Ok`:
the flush is attempted (`flushCount` becomes 1) but its failure never
surfaces to the caller. -/
theorem claim_C4_send_swallows_flush_failure :
    send idEnvelope ⟨⟨[], [], none, false, 0⟩, some idJwk⟩ (.ping [42]) =
      .ok ⟨⟨[], [130, 3, 137, 1, 42], none, false, 1⟩, some idJwk⟩ ∧
    (⟨[], [], none, false, 0⟩ : ByteStream).flushOk = false :=
  ⟨rfl, rfl⟩

/-- C5: if the underlying stream reports clean end-of-data before any bytes
of a new frame, `read` returns `Ok(None)` (a success, not an error), with or
without a shared secret, and neither the envelope decoder nor the cipher is
consulted (the result holds for every envelope and key). -/
theorem claim_C5_clean_eof (env : Envelope) (st : Layer8Streamer)
    (h : st.frameSocket.input = []) :
    readMessage env st = .ok none := by
  simp [readMessage, frameSocketRead, h, parseFrame]

theorem claim_C5_witness :
    readMessage idEnvelope ⟨⟨[], [], none, true, 0⟩, some idJwk⟩ = .ok none :=
  claim_C5_clean_eof idEnvelope ⟨⟨[], [], none, true, 0⟩, some idJwk⟩ rfl

/-- C8: `read`, `write`, `send` and `flush` all leave the `shared_secret`
field unchanged: its presence or absence after each operation is the same
as before, for every message and stream state. -/
theorem claim_C8_shared_secret_preserved (env : Envelope)
    (st : Layer8Streamer) (m : Message) :
    (∀ st', writeMessage env st m = .ok st' → st'.sharedSecret = st.sharedSecret) ∧
    (∀ st', send env st m = .ok st' → st'.sharedSecret = st.sharedSecret) ∧
    (∀ st', streamerFlush st = .ok st' → st'.sharedSecret = st.sharedSecret) ∧
    (∀ msg st', readMessage env st = .ok (some (msg, st')) →
      st'.sharedSecret = st.sharedSecret) := by
  refine ⟨fun st' h => writeMessage_sharedSecret env st m st' h, ?_, ?_, ?_⟩
  · intro st' h
    simp only [send] at h
    rcases hw : writeMessage env st m with e | st1 <;> simp only [hw] at h
    · cases h
    · cases h
      exact writeMessage_sharedSecret env st m st1 hw
  · intro st' h
    simp only [streamerFlush, ByteStream.flushRaw] at h
    rcases hf : st.frameSocket.flushOk with _ | _ <;> simp only [hf] at h
    · cases h
    · cases h; rfl
  · intro msg st' h
    exact (readMessage_ok_some env st msg st' h).1

theorem claim_C8_witness :
    writeMessage idEnvelope ⟨⟨[], [], none, true, 0⟩, some idJwk⟩ (.ping [42]) =
      .ok ⟨⟨[], [130, 3, 137, 1, 42], none, true, 0⟩, some idJwk⟩ ∧
    (⟨⟨[], [130, 3, 137, 1, 42], none, true, 0⟩, some idJwk⟩ : Layer8Streamer).sharedSecret =
      (⟨⟨[], [], none, true, 0⟩, some idJwk⟩ : Layer8Streamer).sharedSecret :=
  ⟨rfl, (claim_C8_shared_secret_preserved idEnvelope ⟨⟨[], [], none, true, 0⟩, some idJwk⟩
    (.ping [42])).1 ⟨⟨[], [130, 3, 137, 1, 42], none, true, 0⟩, some idJwk⟩ rfl⟩

/-- C9: a byte-level `Layer8Stream` write of an empty buffer returns
`Ok(0)` and touches nothing: the underlying stream is exactly as before
(only the debug counter `written_len` is set to 0), and neither the cipher
nor the envelope encoder runs (the result holds for every envelope and every
key held by the stream). -/
theorem claim_C9_stream_write_empty (env : Envelope) (st : Layer8Stream) :
    layer8StreamWrite env st [] = .ok ({ st with writtenLen := 0 }, 0) ∧
    ({ st with writtenLen := 0 } : Layer8Stream).stream = st.stream :=
  ⟨by simp [layer8StreamWrite, commonWrite], rfl⟩

/-- C10: a successful non-empty `Layer8Stream` write reports the plaintext
length `buf.len()` (even though the encoded envelope written to the
underlying stream may be longer), and whenever the underlying stream
accepts fewer bytes than the full encoded envelope, write fails with an
error rather than reporting a partial write. -/
theorem claim_C10_stream_write_reported_len (env : Envelope) (st : Layer8Stream)
    (buf c : List Nat) (hne : buf ≠ [])
    (henc : st.sharedSecret.symmetricEncrypt buf = .ok c) :
    (∀ st' n, layer8StreamWrite env st buf = .ok (st', n) → n = buf.length) ∧
    (∀ cap, st.stream.writeCap = some cap → cap < (env.encode c).length →
      layer8StreamWrite env st buf = .error "Failed to write all encrypted data") := by
  constructor
  · intro st' n h
    simp only [layer8StreamWrite, commonWrite, if_neg hne, henc,
      ByteStream.writeBytes] at h
    split at h
    · cases h
    · next heq =>
      split at heq
      · cases heq
      · cases heq
        cases h
        rfl
  · intro cap hcap hlt
    simp only [layer8StreamWrite, commonWrite, if_neg hne, henc,
      ByteStream.writeBytes, hcap]
    rw [if_pos (by omega : min cap (env.encode c).length ≠ (env.encode c).length)]

theorem claim_C10_witness :
    layer8StreamWrite idEnvelope ⟨⟨[], [], some 1, true, 0⟩, idJwk, 0, 0⟩ [5, 6] =
      .error "Failed to write all encrypted data" :=
  (claim_C10_stream_write_reported_len idEnvelope ⟨⟨[], [], some 1, true, 0⟩, idJwk, 0, 0⟩
    [5, 6] [5, 6] (by simp) rfl).2 1 rfl (by simp [idEnvelope])

/-- C6: without a shared secret, `read` returns the frame from
`FrameSocket::read` wrapped as `Message::Frame` with no transformation, and
`write`/`send` convert each Message variant into exactly one frame: Text
and Binary become a single final data frame of the corresponding opcode,
Ping/Pong/Close use their dedicated control-frame constructors, and a raw
Frame passes through unchanged. -/
theorem claim_C6_plaintext_path (env : Envelope) (st : Layer8Streamer)
    (m : Message) (hsec : st.sharedSecret = none) :
    (writeMessage env st m =
      .ok { st with
        frameSocket := { st.frameSocket with
          output := st.frameSocket.output ++ serializeFrame (frameOfMessage m) } }) ∧
    (∀ f rest, parseFrame none st.frameSocket.input = .ok (some (f, rest)) →
      readMessage env st =
        .ok (some (.frame f, { st with
          frameSocket := { st.frameSocket with input := rest } }))) ∧
    (∀ d, frameOfMessage (.text d) = Frame.message d (.data .text) true) ∧
    (∀ d, frameOfMessage (.binary d) = Frame.message d (.data .binary) true) ∧
    (∀ d, frameOfMessage (.ping d) = Frame.ping d) ∧
    (∀ d, frameOfMessage (.pong d) = Frame.pong d) ∧
    (∀ c, frameOfMessage (.close c) = Frame.close c) ∧
    (∀ f, frameOfMessage (.frame f) = f) := by
  refine ⟨?_, ?_, fun d => rfl, fun d => rfl, fun d => rfl, fun d => rfl,
    fun c => rfl, fun f => rfl⟩
  · simp [writeMessage, hsec, frameSocketWrite]
  · intro f rest hp
    simp [readMessage, frameSocketRead, hp, hsec]

theorem claim_C6_witness :
    writeMessage idEnvelope ⟨⟨[], [], none, true, 0⟩, none⟩ (.text [104, 105]) =
      .ok ⟨⟨[], [129, 2, 104, 105], none, true, 0⟩, none⟩ :=
  (claim_C6_plaintext_path idEnvelope ⟨⟨[], [], none, true, 0⟩, none⟩
    (.text [104, 105]) rfl).1

/-- C2: with a shared secret configured, `read_message` decodes the outer
frame's payload through the envelope decoder, symmetric-decrypts it, and
re-parses the decrypted bytes with a fresh frame reader positioned at byte
0 of an owned buffer (never the outer socket, whose remaining input is
untouched), returning `Some(Message::Frame(inner))` holding exactly one
inner frame; a decrypted buffer that does not yield a complete frame gives
an error, never `None` or a retry. -/
theorem claim_C2_read_message_encrypted (env : Envelope) (key : Jwk)
    (st : Layer8Streamer) (f : Frame) (rest data plain : List Nat)
    (hsec : st.sharedSecret = some key)
    (hp : parseFrame none st.frameSocket.input = .ok (some (f, rest)))
    (hdec : env.decode f.payload = .ok data)
    (hdc : key.symmetricDecrypt data = .ok plain) :
    (∀ inner irest, parseFrame none plain = .ok (some (inner, irest)) →
      readMessage env st =
        .ok (some (.frame inner, { st with
          frameSocket := { st.frameSocket with input := rest } }))) ∧
    (parseFrame none plain = .ok none →
      readMessage env st = .error "Failed to read nested frame") ∧
    (∀ e, parseFrame none plain = .error e →
      readMessage env st = .error ("Failed to read frame: " ++ e)) := by
  refine ⟨?_, ?_, ?_⟩
  · intro inner irest hn
    simp [readMessage, frameSocketRead, hp, hsec, hdec, hdc, hn]
  · intro hn
    simp [readMessage, frameSocketRead, hp, hsec, hdec, hdc, hn]
  · intro e hn
    simp [readMessage, frameSocketRead, hp, hsec, hdec, hdc, hn]

theorem claim_C2_witness :
    readMessage idEnvelope
      ⟨⟨[130, 3, 137, 1, 42], [], none, true, 0⟩, some idJwk⟩ =
      .ok (some (.frame (Frame.ping [42]),
        ⟨⟨[], [], none, true, 0⟩, some idJwk⟩)) :=
  (claim_C2_read_message_encrypted idEnvelope idJwk
    ⟨⟨[130, 3, 137, 1, 42], [], none, true, 0⟩, some idJwk⟩
    (Frame.message [137, 1, 42] (.data .binary) true) [] [137, 1, 42] [137, 1, 42]
    rfl rfl rfl rfl).1 (Frame.ping [42]) [] rfl

/-- C7 (spec-modelled size limit): a successful `read` consumes at most
header + default-ceiling bytes from the outer stream; the frame a read
returns (outer or nested) has payload at most the default 1 GiB ceiling;
`parseFrame` honours any configured limit; and a wire frame advertising a
payload above the ceiling is a fatal Capacity error, not a truncation. -/
theorem claim_C7_read_size_limit (env : Envelope) (st : Layer8Streamer)
    (msg : Message) (st' : Layer8Streamer)
    (h : readMessage env st = .ok (some (msg, st'))) :
    (st.frameSocket.input.length ≤
      st'.frameSocket.input.length + 14 + defaultReadCeiling) ∧
    (∀ f, msg = .frame f → f.payload.length ≤ defaultReadCeiling) ∧
    (∀ limit bytes f rest, parseFrame (some limit) bytes = .ok (some (f, rest)) →
      f.payload.length ≤ limit) ∧
    (∀ f, f.mask = none → f.payload.length < 2 ^ 64 →
      defaultReadCeiling < f.payload.length →
      parseFrame none (serializeFrame f) = .error "Capacity: frame too large") := by
  obtain ⟨-, f, rest, hp, hrest, g, hmsg, hbound⟩ := readMessage_ok_some env st msg st' h
  refine ⟨?_, ?_, ?_, ?_⟩
  · have hb := (parseFrame_ok_bound none st.frameSocket.input f rest hp).2
    rw [hrest]
    simpa using hb
  · intro f0 h0
    have : f0 = g := by
      rw [h0] at hmsg
      exact Message.frame.inj hmsg
    rw [this]
    exact hbound
  · intro limit bytes f0 rest0 hpb
    simpa using (parseFrame_ok_bound (some limit) bytes f0 rest0 hpb).1
  · intro f0 hf0 h64 hbig
    rw [parseFrame_serializeFrame none f0
      (fun k hk => absurd (hf0 ▸ hk) (by simp)) h64]
    rw [if_pos (by simpa using hbig)]

theorem claim_C7_witness :
    (⟨⟨[137, 1, 42], [], none, true, 0⟩, none⟩ :
        Layer8Streamer).frameSocket.input.length ≤
      (⟨⟨[], [], none, true, 0⟩, none⟩ :
        Layer8Streamer).frameSocket.input.length + 14 + defaultReadCeiling :=
  (claim_C7_read_size_limit idEnvelope ⟨⟨[137, 1, 42], [], none, true, 0⟩, none⟩
    (.frame (Frame.ping [42])) ⟨⟨[], [], none, true, 0⟩, none⟩ rfl).1

/-- C3 (encrypted round trip): for every message and key, assuming the
symmetric cipher and the envelope codec are mutual inverses and the frame
sizes fit the read ceiling, a `send` on a streamer configured with the key
writes exactly the outer frame bytes, and a `read` on a streamer over that
byte buffer with the same key yields `Message::Frame(f)` where `f` is
exactly the message's frame representation (same opcode and payload). -/
theorem claim_C3_roundtrip_encrypted (env : Envelope) (key : Jwk)
    (sender : Layer8Streamer) (m : Message) (c : List Nat)
    (hsec : sender.sharedSecret = some key)
    (henc : key.symmetricEncrypt (serializeFrame (frameOfMessage m)) = .ok c)
    (hinv : ∀ b cc, key.symmetricEncrypt b = .ok cc →
      key.symmetricDecrypt cc = .ok b)
    (henv : ∀ b, env.decode (env.encode b) = .ok b)
    (hmask : ∀ k, (frameOfMessage m).mask = some k → k.length = 4)
    (hinner : (frameOfMessage m).payload.length ≤ defaultReadCeiling)
    (houter : (env.encode c).length ≤ defaultReadCeiling) :
    (writeMessage env sender m =
      .ok { sender with
        frameSocket := { sender.frameSocket with
          output := sender.frameSocket.output ++
            serializeFrame (Frame.message (env.encode c) (.data .binary) true) } }) ∧
    readMessage env
      ⟨⟨serializeFrame (Frame.message (env.encode c) (.data .binary) true),
        [], none, true, 0⟩, some key⟩ =
      .ok (some (.frame (frameOfMessage m),
        ⟨⟨[], [], none, true, 0⟩, some key⟩)) := by
  have hceil : defaultReadCeiling < 2 ^ 64 := by
    simp only [defaultReadCeiling]
    norm_num
  constructor
  · simp [writeMessage, hsec, henc, frameSocketWrite]
  · have hX1 : ¬ (none : Option Nat).getD defaultReadCeiling <
        (⟨true, .data .binary, none, env.encode c⟩ : Frame).payload.length := by
      simp only [Option.getD_none]
      exact Nat.not_lt.mpr houter
    have hX2 : ¬ (none : Option Nat).getD defaultReadCeiling <
        (frameOfMessage m).payload.length := by
      simp only [Option.getD_none]
      exact Nat.not_lt.mpr hinner
    have houterParse :
        parseFrame none
          (serializeFrame ⟨true, .data .binary, none, env.encode c⟩) =
        .ok (some ((⟨true, .data .binary, none, env.encode c⟩ : Frame), [])) := by
      rw [parseFrame_serializeFrame none _ (fun k hk => by cases hk)
        (lt_of_le_of_lt houter hceil)]
      rw [if_neg hX1]
    have hinnerParse :
        parseFrame none (serializeFrame (frameOfMessage m)) =
        .ok (some (frameOfMessage m, [])) := by
      rw [parseFrame_serializeFrame none _ hmask (lt_of_le_of_lt hinner hceil)]
      rw [if_neg hX2]
    have hdec := hinv _ _ henc
    simp [readMessage, frameSocketRead, houterParse, henv, hdec, hinnerParse,
      Frame.message]

theorem claim_C3_witness :
    (writeMessage idEnvelope ⟨⟨[], [], none, true, 0⟩, some idJwk⟩ (.binary [1, 2]) =
      .ok ⟨⟨[], [130, 4, 130, 2, 1, 2], none, true, 0⟩, some idJwk⟩) ∧
    readMessage idEnvelope ⟨⟨[130, 4, 130, 2, 1, 2], [], none, true, 0⟩, some idJwk⟩ =
      .ok (some (.frame (Frame.message [1, 2] (.data .binary) true),
        ⟨⟨[], [], none, true, 0⟩, some idJwk⟩)) :=
  claim_C3_roundtrip_encrypted idEnvelope idJwk
    ⟨⟨[], [], none, true, 0⟩, some idJwk⟩ (.binary [1, 2]) [130, 2, 1, 2]
    rfl rfl (fun b cc h => by cases h; rfl) (fun b => rfl)
    (fun k hk => by cases hk) (by decide) (by decide)

end Layer8
